import Mathlib

/-!
Shallow embedding of `valve/source/rcon.py` (python-valve RCON client).

Bytes are modelled as `Nat` values (the encoder only ever produces values
below 256; the decoder, like the Python code, never validates byte ranges).
Signed 32-bit integers are modelled as `Int` with explicit reduction
modulo `2 ^ 32`; `struct.pack` failures (out-of-range values) are modelled
with `Option`.  Python exceptions are modelled with `Except` / explicit
outcome types.  Outbound traffic (`socket.sendall`) has no effect on any
state the spec claims talk about and is not modelled; inbound reads are
scripted lists of events.
-/

namespace Rcon

/-- Little-endian byte serialisation of an unsigned 32-bit value, as
`struct.pack` lays it out. -/
def bytesOfU32 (u : Nat) : List Nat :=
  [u % 256, u / 256 % 256, u / 65536 % 256, u / 16777216 % 256]

/-- Model of `struct.pack("<i", n)`: two's-complement little-endian bytes for
`n` in the signed 32-bit range, `none` (a `struct.error`) otherwise. -/
def packI32 (n : Int) : Option (List Nat) :=
  if -(2 ^ 31) ≤ n ∧ n < 2 ^ 31 then
    some (bytesOfU32 (n % 2 ^ 32).toNat)
  else
    none

/-- Model of `struct.unpack("<i", b)` on a 4-byte slice: combine the bytes
little-endian and reinterpret as a signed 32-bit value.  Every call site in
the source is guarded by a length check, so the wildcard case is never
reached on the guarded paths. -/
def unpackI32 : List Nat → Int
  | [a, b, c, d] =>
      let u : Nat := a + 256 * b + 65536 * c + 16777216 * d
      if u < 2 ^ 31 then (u : Int) else (u : Int) - 2 ^ 32
  | _ => 0

/-- Python slice `l[:n]` for a possibly negative `n`. -/
def takeInt (l : List Nat) (n : Int) : List Nat :=
  if n < 0 then l.take ((l.length : Int) + n).toNat else l.take n.toNat

/-- Python slice `l[n:]` for a possibly negative `n`. -/
def dropInt (l : List Nat) (n : Int) : List Nat :=
  if n < 0 then l.drop ((l.length : Int) + n).toNat else l.drop n.toNat

/-- Represents a RCON request or response (`RCONMessage`): `id` and `type`
are Python ints, `body` a bytestring. -/
structure RCONMessage where
  id : Int
  type : Int
  body : List Nat
deriving DecidableEq, Repr

namespace RCONMessage

/-- Membership in the `RCONMessage.Type` `IntEnum`, whose members are
`RESPONSE_VALUE = 0`, `AUTH_RESPONSE = 2`, `EXECCOMMAND = 2`, `AUTH = 3`. -/
def typeValid (t : Int) : Bool :=
  t == 0 || t == 2 || t == 3

/-- Model of `RCONMessage.__init__(id_, type_, body)` for a bytes body:
`self.type = self.Type(type_)` raises `ValueError` (here `none`) when
`type_` is not a member of the enum. -/
def mk? (id type : Int) (body : List Nat) : Option RCONMessage :=
  if typeValid type then some ⟨id, type, body⟩ else none

/-- Model of `RCONMessage.encode`: `size` counts the two fixed fields plus
the null-terminated body, and `struct.pack("<iii", size, id, type)` fails
(propagated here through `Option.bind`) when any field is outside the
signed 32-bit range. -/
def encode (m : RCONMessage) : Option (List Nat) :=
  let terminated := m.body ++ [0, 0]
  let size : Int := 8 + terminated.length
  (packI32 size).bind fun sb =>
    (packI32 m.id).bind fun ib =>
      (packI32 m.type).bind fun tb => some (sb ++ ib ++ tb ++ terminated)

/-- Failure modes of `RCONMessage.decode`: `messageError` is the
`RCONMessageError` raised for short buffers, `valueError` the uncaught
`ValueError` raised by `self.Type(type_)` on an unknown type code, and
`structError` the uncaught `struct.error` raised when the sized payload is
shorter than the two fixed fields. -/
inductive DecodeErr where
  | messageError
  | valueError
  | structError
deriving DecidableEq, Repr

/-- Model of `RCONMessage.decode`: read the 4-byte size field, slice off the
sized payload, split it into id, type and null-terminated body, and return
the message together with the unconsumed remainder of the buffer. -/
def decode (buffer : List Nat) : Except DecodeErr (RCONMessage × List Nat) :=
  if buffer.length < 4 then
    .error .messageError
  else
    let size : Int := unpackI32 (buffer.take 4)
    let rawMessage := buffer.drop 4
    if (rawMessage.length : Int) < size then
      .error .messageError
    else
      let message := takeInt rawMessage size
      let remainder := dropInt rawMessage size
      if message.length < 8 then
        .error .structError
      else
        let id := unpackI32 (message.take 4)
        let type := unpackI32 ((message.drop 4).take 4)
        let bodyAndTerminators := message.drop 8
        let body := bodyAndTerminators.take (bodyAndTerminators.length - 2)
        match mk? id type body with
        | some m => .ok (m, remainder)
        | none => .error .valueError

end RCONMessage

/-- Explicit byte layout of `RCONMessage.encode` on a message with the given
fields, used to state lemmas about complete frames. -/
def frameOf (id type : Int) (body : List Nat) : List Nat :=
  bytesOfU32 ((((body.length : Int) + 10) % 2 ^ 32).toNat) ++
    bytesOfU32 ((id % 2 ^ 32).toNat) ++
    bytesOfU32 ((type % 2 ^ 32).toNat) ++
    body ++ [0, 0]

/-- Signed 32-bit range predicate for the fields `struct.pack("<i", ·)`
accepts. -/
def i32Range (n : Int) : Prop :=
  -(2 ^ 31) ≤ n ∧ n < 2 ^ 31

instance (n : Int) : Decidable (i32Range n) := by
  unfold i32Range; infer_instance

theorem unpackI32_bytesOfU32 {n : Int} (h : i32Range n) :
    Rcon.unpackI32 (Rcon.bytesOfU32 (n % 2 ^ 32).toNat) = n := by
  obtain ⟨h1, h2⟩ := h
  have hpos : (0 : Int) < 2 ^ 32 := by norm_num
  have hnn : 0 ≤ n % 2 ^ 32 := Int.emod_nonneg n (by norm_num)
  have hlt : n % 2 ^ 32 < 2 ^ 32 := Int.emod_lt_of_pos n hpos
  set u : Nat := (n % 2 ^ 32).toNat with hu
  have hu32 : u < 2 ^ 32 := by omega
  have hrecomb :
      u % 256 + 256 * (u / 256 % 256) + 65536 * (u / 65536 % 256) +
        16777216 * (u / 16777216 % 256) = u := by
    omega
  have huval : (u : Int) = n % 2 ^ 32 := by omega
  have hcases : n % 2 ^ 32 = n ∨ n % 2 ^ 32 = n + 2 ^ 32 := by
    omega
  simp only [Rcon.bytesOfU32, Rcon.unpackI32, hrecomb]
  rcases hcases with hc | hc
  · have : u < 2 ^ 31 := by omega
    simp only [if_pos this]
    omega
  · have : ¬ (u < 2 ^ 31) := by omega
    simp only [if_neg this]
    omega

theorem typeValid_cases {t : Int} (ht : RCONMessage.typeValid t = true) :
    t = 0 ∨ t = 2 ∨ t = 3 := by
  simp only [RCONMessage.typeValid, Bool.or_eq_true, beq_iff_eq] at ht
  tauto

theorem typeValid_range {t : Int} (ht : RCONMessage.typeValid t = true) :
    i32Range t := by
  unfold i32Range
  rcases typeValid_cases ht with h | h | h <;> omega

theorem packI32_of_range {n : Int} (h : i32Range n) :
    packI32 n = some (bytesOfU32 ((n % 2 ^ 32).toNat)) := by
  obtain ⟨h1, h2⟩ := h
  unfold packI32
  rw [if_pos ⟨h1, h2⟩]

theorem encode_eq_frameOf (id t : Int) (body : List Nat) (hid : i32Range id)
    (ht : RCONMessage.typeValid t = true)
    (hb : (body.length : Int) + 10 < 2 ^ 31) :
    RCONMessage.encode ⟨id, t, body⟩ = some (frameOf id t body) := by
  have hsz : i32Range ((body.length : Int) + 10) := by
    unfold i32Range
    omega
  have htr : i32Range t := typeValid_range ht
  have hlen : (8 : Int) + ((body ++ [0, 0]).length : Nat) =
      (body.length : Int) + 10 := by
    push_cast [List.length_append, List.length_cons, List.length_nil]
    ring
  simp only [RCONMessage.encode]
  rw [hlen, packI32_of_range hsz, packI32_of_range hid, packI32_of_range htr]
  simp [frameOf, List.append_assoc]

theorem packI32_some_range {n : Int} {l : List Nat} (h : packI32 n = some l) :
    i32Range n := by
  unfold packI32 at h
  split at h
  case isTrue hc => exact ⟨hc.1, hc.2⟩
  case isFalse => exact absurd h (by simp)

theorem encode_isSome_hyps {m : RCONMessage} {l : List Nat}
    (h : RCONMessage.encode m = some l) :
    i32Range m.id ∧ i32Range m.type ∧ ((m.body.length : Int) + 10 < 2 ^ 31) := by
  simp only [RCONMessage.encode, Option.bind_eq_some] at h
  obtain ⟨sb, hsb, ib, hib, tb, htb, -⟩ := h
  refine ⟨packI32_some_range hib, packI32_some_range htb, ?_⟩
  have := (packI32_some_range hsb).2
  push_cast [List.length_append, List.length_cons, List.length_nil] at this
  omega

/-- Drives decoder correctness: a buffer laid out as four size bytes, four id
bytes, four type bytes, a terminated body and trailing data decodes to the
message built from the decoded fields with the trailing data as remainder. -/
theorem decode_blocks (sb ib tb body extra : List Nat)
    (hsb : sb.length = 4) (hib : ib.length = 4) (htb : tb.length = 4)
    (hsz : unpackI32 sb = (body.length : Int) + 10) :
    RCONMessage.decode (sb ++ ib ++ tb ++ (body ++ [0, 0]) ++ extra) =
      match RCONMessage.mk? (unpackI32 ib) (unpackI32 tb) body with
      | some m => .ok (m, extra)
      | none => .error .valueError := by
  have hcore : (ib ++ tb ++ (body ++ [0, 0])).length = body.length + 10 := by
    simp only [List.length_append, List.length_cons, List.length_nil, hib, htb]
    omega
  have hbuf : sb ++ ib ++ tb ++ (body ++ [0, 0]) ++ extra
      = sb ++ ((ib ++ tb ++ (body ++ [0, 0])) ++ extra) := by
    simp [List.append_assoc]
  have hblen : ((ib ++ tb ++ (body ++ [0, 0])) ++ extra).length
      = body.length + 10 + extra.length := by
    rw [List.length_append, hcore]
  have hTk : takeInt ((ib ++ tb ++ (body ++ [0, 0])) ++ extra)
      ((body.length : Int) + 10) = ib ++ tb ++ (body ++ [0, 0]) := by
    unfold takeInt
    rw [if_neg (by omega),
      show ((body.length : Int) + 10).toNat = body.length + 10 from by omega]
    exact List.take_left' hcore
  have hDp : dropInt ((ib ++ tb ++ (body ++ [0, 0])) ++ extra)
      ((body.length : Int) + 10) = extra := by
    unfold dropInt
    rw [if_neg (by omega),
      show ((body.length : Int) + 10).toNat = body.length + 10 from by omega]
    exact List.drop_left' hcore
  have hc2 : ib ++ tb ++ (body ++ [0, 0]) = ib ++ (tb ++ (body ++ [0, 0])) := by
    simp [List.append_assoc]
  have htk4 : List.take 4 (ib ++ tb ++ (body ++ [0, 0])) = ib := by
    rw [hc2]
    exact List.take_left' hib
  have hdp4 : List.drop 4 (ib ++ tb ++ (body ++ [0, 0])) = tb ++ (body ++ [0, 0]) := by
    rw [hc2]
    exact List.drop_left' hib
  have hdrop8 : List.drop 8 (ib ++ tb ++ (body ++ [0, 0])) = body ++ [0, 0] :=
    List.drop_left' (by simp [List.length_append, hib, htb])
  simp only [RCONMessage.decode]
  rw [hbuf]
  rw [if_neg (by simp [List.length_append, hsb])]
  rw [List.take_left' hsb, hsz, List.drop_left' hsb]
  rw [if_neg (by rw [hblen]; push_cast; omega)]
  rw [hTk, hDp]
  rw [if_neg (by rw [hcore]; omega)]
  rw [htk4, hdp4, List.take_left' htb, hdrop8]
  have hfin : List.take ((body ++ [0, 0]).length - 2) (body ++ [0, 0]) = body := by
    have h2 : (body ++ [0, 0]).length - 2 = body.length := by
      simp only [List.length_append, List.length_cons, List.length_nil]
      omega
    rw [h2]
    exact List.take_left' rfl
  rw [hfin]

/-- Decoding a complete encoded frame, with arbitrary trailing bytes,
recovers the original message and leaves exactly the trailing bytes. -/
theorem decode_frameOf_append (id t : Int) (body extra : List Nat)
    (hid : i32Range id) (ht : RCONMessage.typeValid t = true)
    (hb : (body.length : Int) + 10 < 2 ^ 31) :
    RCONMessage.decode (frameOf id t body ++ extra) =
      .ok (⟨id, t, body⟩, extra) := by
  have hsz : i32Range ((body.length : Int) + 10) := by
    unfold i32Range
    omega
  have hfr : frameOf id t body ++ extra =
      bytesOfU32 ((((body.length : Int) + 10) % 2 ^ 32).toNat) ++
        bytesOfU32 ((id % 2 ^ 32).toNat) ++
        bytesOfU32 ((t % 2 ^ 32).toNat) ++ (body ++ [0, 0]) ++ extra := by
    simp [frameOf, List.append_assoc]
  have e1 : (bytesOfU32 ((((body.length : Int) + 10) % 2 ^ 32).toNat)).length = 4 := rfl
  have e2 : (bytesOfU32 ((id % 2 ^ 32).toNat)).length = 4 := rfl
  have e3 : (bytesOfU32 ((t % 2 ^ 32).toNat)).length = 4 := rfl
  rw [hfr, decode_blocks _ _ _ _ _ e1 e2 e3 (unpackI32_bytesOfU32 hsz)]
  rw [unpackI32_bytesOfU32 hid, unpackI32_bytesOfU32 (typeValid_range ht)]
  simp only [RCONMessage.mk?, ht, if_true]

theorem frameOf_length (id t : Int) (body : List Nat) :
    (frameOf id t body).length = body.length + 14 := by
  simp [frameOf, bytesOfU32]

/-- A strict front part of a complete frame never decodes: either fewer than
four bytes are present, or the size field demands more bytes than remain. -/
theorem decode_take_frameOf (id t : Int) (body : List Nat) (n : Nat)
    (hb : (body.length : Int) + 10 < 2 ^ 31)
    (hn : n < (frameOf id t body).length) :
    RCONMessage.decode ((frameOf id t body).take n) = .error .messageError := by
  have hsz : i32Range ((body.length : Int) + 10) := by
    unfold i32Range
    omega
  have hlen : (frameOf id t body).length = body.length + 14 :=
    frameOf_length id t body
  have htklen : ((frameOf id t body).take n).length = n := by
    rw [List.length_take]
    omega
  by_cases h4 : n < 4
  · simp only [RCONMessage.decode]
    rw [if_pos (by omega)]
  · simp only [RCONMessage.decode]
    rw [if_neg (by omega)]
    have htk4 : ((frameOf id t body).take n).take 4 = (frameOf id t body).take 4 := by
      rw [List.take_take]
      congr 1
      omega
    have hfr4 : (frameOf id t body).take 4 =
        bytesOfU32 ((((body.length : Int) + 10) % 2 ^ 32).toNat) := by
      have : frameOf id t body =
          bytesOfU32 ((((body.length : Int) + 10) % 2 ^ 32).toNat) ++
            (bytesOfU32 ((id % 2 ^ 32).toNat) ++
              bytesOfU32 ((t % 2 ^ 32).toNat) ++ body ++ [0, 0]) := by
        simp [frameOf, List.append_assoc]
      rw [this]
      exact List.take_left' rfl
    rw [htk4, hfr4, unpackI32_bytesOfU32 hsz]
    rw [if_pos ?hcond]
    case hcond =>
      have : (((frameOf id t body).take n).drop 4).length = n - 4 := by
        rw [List.length_drop]
        omega
      rw [this]
      omega

theorem dropInt_length_le (l : List Nat) (n : Int) :
    (dropInt l n).length ≤ l.length := by
  unfold dropInt
  split <;> simp [List.length_drop]

theorem decode_ok_rest_length {buf : List Nat} {m : RCONMessage}
    {rest : List Nat} (h : RCONMessage.decode buf = .ok (m, rest)) :
    rest.length < buf.length := by
  simp only [RCONMessage.decode] at h
  split at h
  · exact absurd h (by simp)
  · next h4 =>
    split at h
    · exact absurd h (by simp)
    · split at h
      · exact absurd h (by simp)
      · split at h
        · next heq =>
          injection h with h'
          injection h' with h1 h2
          subst h2
          have := dropInt_length_le (buf.drop 4) (unpackI32 (buf.take 4))
          simp [List.length_drop] at this
          omega
        · exact absurd h (by simp)

/-- State of a `_ResponseBuffer`: the raw unconsumed byte tail, the FIFO
queue of decoded messages, and the discard counter. -/
structure ResponseBuffer where
  buffer : List Nat
  responses : List RCONMessage
  discardNext : Nat
deriving DecidableEq, Repr

namespace ResponseBuffer

/-- Model of `_ResponseBuffer.__init__`. -/
def init : ResponseBuffer := ⟨[], [], 0⟩

/-- Model of `_ResponseBuffer.pop`: `none` models the `RCONError` raised on
an empty queue. -/
def pop (rb : ResponseBuffer) : Option (RCONMessage × ResponseBuffer) :=
  match rb.responses with
  | [] => none
  | m :: rest => some (m, { rb with responses := rest })

/-- Model of `_ResponseBuffer._consume`: repeatedly decode messages off the
front of the buffer, queueing them (or dropping them while the discard
counter is positive) until the buffer is empty or an `RCONMessageError`
says more bytes are needed.  Any other decode exception propagates. -/
def consume (rb : ResponseBuffer) : Except RCONMessage.DecodeErr ResponseBuffer :=
  if rb.buffer = [] then
    .ok rb
  else
    match hdec : RCONMessage.decode rb.buffer with
    | .ok (message, rest) =>
        if rb.discardNext = 0 then
          consume { rb with buffer := rest, responses := rb.responses ++ [message] }
        else
          consume { rb with buffer := rest, discardNext := rb.discardNext - 1 }
    | .error .messageError => .ok rb
    | .error e => .error e
termination_by rb.buffer.length
decreasing_by
  all_goals simpa using decode_ok_rest_length hdec

/-- Model of `_ResponseBuffer.feed`: append the bytes to the tail and
consume.  The debug `print` in the source writes to stdout only and has no
effect on the buffer state. -/
def feed (rb : ResponseBuffer) (bytes : List Nat) :
    Except RCONMessage.DecodeErr ResponseBuffer :=
  consume { rb with buffer := rb.buffer ++ bytes }

/-- Model of `_ResponseBuffer.discard`: drop the oldest queued message if
one exists, otherwise schedule one future message to be dropped. -/
def discard (rb : ResponseBuffer) : ResponseBuffer :=
  match rb.responses with
  | _ :: rest => { rb with responses := rest }
  | [] => { rb with discardNext := rb.discardNext + 1 }

end ResponseBuffer

/-- Sequence of `feed` calls, propagating the first uncaught decode
exception (helper for stating claims about split deliveries). -/
def feedMany (rb : ResponseBuffer) :
    List (List Nat) → Except RCONMessage.DecodeErr ResponseBuffer
  | [] => .ok rb
  | c :: cs =>
    match rb.feed c with
    | .ok rb1 => feedMany rb1 cs
    | .error e => .error e

theorem consume_nil (resp : List RCONMessage) (d : Nat) :
    ResponseBuffer.consume ⟨[], resp, d⟩ = .ok ⟨[], resp, d⟩ := by
  rw [ResponseBuffer.consume]
  dsimp only
  rw [if_pos rfl]

theorem consume_stuck {rb : ResponseBuffer}
    (h : RCONMessage.decode rb.buffer = .error .messageError) :
    ResponseBuffer.consume rb = .ok rb := by
  rw [ResponseBuffer.consume]
  split
  · rfl
  · split
    · next heq =>
      rw [h] at heq
      exact absurd heq (by simp)
    · rfl
    · next heq =>
      rename_i e hcond
      rw [h] at heq
      injection heq with h'
      exact absurd h'.symm hcond

theorem consume_step_keep {buf : List Nat} {resp : List RCONMessage}
    {m : RCONMessage} {rest : List Nat}
    (h : RCONMessage.decode buf = .ok (m, rest)) (hne : buf ≠ []) :
    ResponseBuffer.consume ⟨buf, resp, 0⟩ =
      ResponseBuffer.consume ⟨rest, resp ++ [m], 0⟩ := by
  rw [ResponseBuffer.consume]
  dsimp only
  rw [if_neg hne]
  split
  · next message rest' heq =>
    rw [h] at heq
    injection heq with heq'
    injection heq' with h1 h2
    subst h1 h2
    rfl
  · next heq =>
    rw [h] at heq
    exact absurd heq (by simp)
  · next heq =>
    rw [h] at heq
    exact absurd heq (by simp)

theorem consume_step_drop {buf : List Nat} {resp : List RCONMessage} {k : Nat}
    {m : RCONMessage} {rest : List Nat}
    (h : RCONMessage.decode buf = .ok (m, rest)) (hne : buf ≠ []) :
    ResponseBuffer.consume ⟨buf, resp, k + 1⟩ =
      ResponseBuffer.consume ⟨rest, resp, k⟩ := by
  rw [ResponseBuffer.consume]
  dsimp only
  rw [if_neg hne]
  split
  · next message rest' heq =>
    rw [h] at heq
    injection heq with heq'
    injection heq' with h1 h2
    subst h1 h2
    rw [if_neg (by omega)]
    simp
  · next heq =>
    rw [h] at heq
    exact absurd heq (by simp)
  · next heq =>
    rw [h] at heq
    exact absurd heq (by simp)

theorem frameOf_ne_nil (id t : Int) (body : List Nat) :
    frameOf id t body ≠ [] := by
  intro h
  have := congrArg List.length h
  rw [frameOf_length] at this
  simp at this

theorem decode_frameOf (id t : Int) (body : List Nat)
    (hid : i32Range id) (ht : RCONMessage.typeValid t = true)
    (hb : (body.length : Int) + 10 < 2 ^ 31) :
    RCONMessage.decode (frameOf id t body) = .ok (⟨id, t, body⟩, []) := by
  have := decode_frameOf_append id t body [] hid ht hb
  simpa using this

theorem consume_empty_buffer {rb : ResponseBuffer} (h : rb.buffer = []) :
    ResponseBuffer.consume rb = .ok rb := by
  rw [ResponseBuffer.consume, if_pos h]

theorem consume_frame_keep (id t : Int) (body : List Nat)
    (resp : List RCONMessage)
    (hid : i32Range id) (ht : RCONMessage.typeValid t = true)
    (hb : (body.length : Int) + 10 < 2 ^ 31) :
    ResponseBuffer.consume ⟨frameOf id t body, resp, 0⟩ =
      .ok ⟨[], resp ++ [⟨id, t, body⟩], 0⟩ := by
  rw [consume_step_keep (decode_frameOf id t body hid ht hb)
    (frameOf_ne_nil id t body), consume_nil]

theorem consume_frame_drop (id t : Int) (body : List Nat)
    (resp : List RCONMessage) (k : Nat)
    (hid : i32Range id) (ht : RCONMessage.typeValid t = true)
    (hb : (body.length : Int) + 10 < 2 ^ 31) :
    ResponseBuffer.consume ⟨frameOf id t body, resp, k + 1⟩ =
      .ok ⟨[], resp, k⟩ := by
  rw [consume_step_drop (decode_frameOf id t body hid ht hb)
    (frameOf_ne_nil id t body), consume_nil]

theorem consume_two_frames (id1 t1 : Int) (b1 : List Nat) (id2 t2 : Int)
    (b2 : List Nat) (resp : List RCONMessage)
    (hid1 : i32Range id1) (ht1 : RCONMessage.typeValid t1 = true)
    (hb1 : (b1.length : Int) + 10 < 2 ^ 31)
    (hid2 : i32Range id2) (ht2 : RCONMessage.typeValid t2 = true)
    (hb2 : (b2.length : Int) + 10 < 2 ^ 31) :
    ResponseBuffer.consume ⟨frameOf id1 t1 b1 ++ frameOf id2 t2 b2, resp, 0⟩ =
      .ok ⟨[], resp ++ [⟨id1, t1, b1⟩, ⟨id2, t2, b2⟩], 0⟩ := by
  have hne : frameOf id1 t1 b1 ++ frameOf id2 t2 b2 ≠ [] := by
    simp [frameOf_ne_nil]
  rw [consume_step_keep (decode_frameOf_append id1 t1 b1 _ hid1 ht1 hb1) hne,
    consume_frame_keep id2 t2 b2 _ hid2 ht2 hb2]
  simp

theorem feedMany_flatten_nil {rb : ResponseBuffer} (hb : rb.buffer = [])
    (cs : List (List Nat)) (h : cs.flatten = []) :
    feedMany rb cs = .ok rb := by
  induction cs with
  | nil => rfl
  | cons c cs ih =>
    simp only [List.flatten_cons, List.append_eq_nil] at h
    obtain ⟨hc, hcs⟩ := h
    rw [feedMany]
    have hfeed : rb.feed c = .ok rb := by
      unfold ResponseBuffer.feed
      rw [show rb.buffer ++ c = rb.buffer by rw [hc, List.append_nil]]
      exact consume_empty_buffer hb
    rw [hfeed]
    exact ih hcs

/-- Feeding chunks that together complete one frame, starting from a strict
front part of the frame already buffered, ends with exactly that message
queued: the core induction behind the partial-delivery claim. -/
theorem feedMany_chunks_aux (id t : Int) (body : List Nat)
    (hid : i32Range id) (ht : RCONMessage.typeValid t = true)
    (hb : (body.length : Int) + 10 < 2 ^ 31) :
    ∀ (chunks : List (List Nat)) (p : List Nat),
      p ++ chunks.flatten = frameOf id t body →
      p.length < (frameOf id t body).length →
      feedMany ⟨p, [], 0⟩ chunks = .ok ⟨[], [⟨id, t, body⟩], 0⟩ := by
  intro chunks
  induction chunks with
  | nil =>
    intro p hp hlen
    rw [List.flatten_nil, List.append_nil] at hp
    subst hp
    omega
  | cons c cs ih =>
    intro p hp hlen
    have happ : (p ++ c) ++ cs.flatten = frameOf id t body := by
      rw [← hp, List.flatten_cons]
      simp [List.append_assoc]
    by_cases hfull : (p ++ c).length = (frameOf id t body).length
    · have hfl : cs.flatten = [] := by
        have hl := congrArg List.length happ
        rw [List.length_append] at hl
        have : cs.flatten.length = 0 := by omega
        exact List.eq_nil_of_length_eq_zero this
      have hpc : p ++ c = frameOf id t body := by
        rw [hfl, List.append_nil] at happ
        exact happ
      rw [feedMany]
      have hfeed : ResponseBuffer.feed ⟨p, [], 0⟩ c = .ok ⟨[], [⟨id, t, body⟩], 0⟩ := by
        unfold ResponseBuffer.feed
        dsimp only
        rw [hpc]
        exact consume_frame_keep id t body [] hid ht hb
      rw [hfeed]
      exact feedMany_flatten_nil rfl cs hfl
    · have hlt : (p ++ c).length < (frameOf id t body).length := by
        have hl := congrArg List.length happ
        rw [List.length_append] at hl
        omega
      have hpfx : p ++ c = (frameOf id t body).take (p ++ c).length := by
        rw [← happ, List.take_left]
      rw [feedMany]
      have hfeed : ResponseBuffer.feed ⟨p, [], 0⟩ c = .ok ⟨p ++ c, [], 0⟩ := by
        unfold ResponseBuffer.feed
        dsimp only
        apply consume_stuck
        show RCONMessage.decode (p ++ c) = .error .messageError
        rw [hpfx]
        exact decode_take_frameOf id t body _ hb hlt
      rw [hfeed]
      exact ih (p ++ c) happ hlt

/-- Connection state of an `RCON` object.  The constructor arguments
`address` and `password` only flow into outbound traffic
(`socket.connect` / `sendall`), which no claim observes, so they are not
part of the modelled state.  `socket` records whether `self._socket` is
set; note that `close()` calls `self._socket.close()` but leaves the
attribute assigned, so the flag stays `true` after closing. -/
structure RCONState where
  timeout : Option ℚ
  authenticated : Bool
  socket : Bool
  closed : Bool
  responses : ResponseBuffer
deriving DecidableEq, Repr

namespace RCON

/-- Model of `RCON.__init__`: `self._timeout = timeout if timeout else None`
turns a zero (falsy) timeout into `None`. -/
def init (timeout : Option ℚ) : RCONState :=
  { timeout := match timeout with
      | none => none
      | some q => if q = 0 then none else some q
    authenticated := false
    socket := false
    closed := false
    responses := ResponseBuffer.init }

/-- Result of `connect` / `close`: either the new state or an `RCONError`
for a call out of lifecycle order, carrying the (unchanged) state. -/
inductive ConnOutcome where
  | ok (s : RCONState)
  | invalidState (s : RCONState)
deriving DecidableEq, Repr

/-- Model of `RCON.connect`: raises if already closed or already holding a
socket, otherwise acquires the transport.  Transport-level connection
failures are outside the modelled scripts. -/
def connect (s : RCONState) : ConnOutcome :=
  if s.closed || s.socket then .invalidState s
  else .ok { s with socket := true }

/-- Model of `RCON.close`: raises if no socket was ever created, otherwise
sets the closed flag and closes (but keeps) the socket object. -/
def close (s : RCONState) : ConnOutcome :=
  if !s.socket then .invalidState s
  else .ok { s with closed := true }

/-- One scripted result of `self._socket.recv(4096)`: either delivered
bytes (the empty list models the peer closing the stream) or a raised
`socket.error`. -/
inductive ReadData where
  | bytes (bs : List Nat)
  | sockError
deriving DecidableEq, Repr

/-- A scripted read together with the monotonic-clock time it consumed. -/
structure ReadEvent where
  delta : ℚ
  data : ReadData
deriving DecidableEq, Repr

/-- Outcome of `_receive`: a returned message tuple with the final state and
unconsumed script, or one of the exceptions it can surface
(`RCONCommunicationError`, `RCONTimeoutError`, the `RCONError` raised by a
`close()` without socket, an uncaught decode exception escaping `feed`), or
`blocked` when the script is exhausted and the loop would sit in `recv`
forever. -/
inductive RecvOutcome where
  | ok (msgs : List RCONMessage) (s : RCONState) (rest : List ReadEvent)
  | commError (s : RCONState)
  | timeoutError (s : RCONState)
  | invalidState (s : RCONState)
  | feedError (s : RCONState)
  | blocked (s : RCONState)
deriving DecidableEq, Repr

/-- Model of `RCON._read`: a socket error or an empty read closes the
connection and raises `RCONCommunicationError`; otherwise the bytes are fed
to the response buffer.  An exception escaping `feed` is reported with the
pre-read state (the partially consumed buffer accompanying it is not
tracked; no claim observes it). -/
def read (s : RCONState) (d : ReadData) : Except RecvOutcome RCONState :=
  match d with
  | .sockError =>
      if s.socket then .error (.commError { s with closed := true })
      else .error (.invalidState s)
  | .bytes [] =>
      if s.socket then .error (.commError { s with closed := true })
      else .error (.invalidState s)
  | .bytes bs =>
      match s.responses.feed bs with
      | .ok rb => .ok { s with responses := rb }
      | .error _ => .error (.feedError s)

/-- The `while` condition of `RCON._receive`:
`self._timeout is None or time.monotonic() - time_start < self._timeout`,
with `clock` standing for the elapsed monotonic time. -/
def loopCond (s : RCONState) (clock : ℚ) : Bool :=
  match s.timeout with
  | none => true
  | some t => decide (clock < t)

/-- Model of the loop of `RCON._receive`: while the deadline has not passed,
perform one read, then try to pop one message, returning once `count`
messages have been popped; when the deadline passes, close and raise
`RCONTimeoutError`. -/
def recvLoop (count : Nat) (acc : List RCONMessage) (s : RCONState)
    (clock : ℚ) : List ReadEvent → RecvOutcome
  | [] =>
      if loopCond s clock then .blocked s
      else if s.socket then .timeoutError { s with closed := true }
      else .invalidState s
  | ev :: rest =>
      if loopCond s clock then
        match read s ev.data with
        | .error out => out
        | .ok s1 =>
          match s1.responses.pop with
          | none => recvLoop count acc s1 (clock + ev.delta) rest
          | some (m, rb) =>
            if (acc ++ [m]).length = count then
              .ok (acc ++ [m]) { s1 with responses := rb } rest
            else
              recvLoop count (acc ++ [m]) { s1 with responses := rb }
                (clock + ev.delta) rest
      else if s.socket then .timeoutError { s with closed := true }
      else .invalidState s

/-- Model of `RCON._receive(count)` against a scripted transport. -/
def receive (s : RCONState) (count : Nat) (script : List ReadEvent) :
    RecvOutcome :=
  recvLoop count [] s 0 script

/-- Outcome of `RCON.authenticate`: success, an
`RCONAuthenticationError(banned)`, the `RCONError` guard for calls while
not connected, a propagated `RCONTimeoutError`, or the propagated
exceptional outcomes of `_receive`. -/
inductive AuthOutcome where
  | success (s : RCONState) (rest : List ReadEvent)
  | authError (banned : Bool) (s : RCONState)
  | invalidState (s : RCONState)
  | timeoutError (s : RCONState)
  | feedError (s : RCONState)
  | blocked (s : RCONState)
  | pyError (s : RCONState)
deriving DecidableEq, Repr

/-- Model of `RCON.authenticate`: guard against unconnected state, send the
AUTH request (outbound, not modelled), wait for two replies, turn a
communication failure into `RCONAuthenticationError(banned=True)`, reject
`id == -1` on the second reply with close plus
`RCONAuthenticationError(banned=False)`, otherwise set the authenticated
flag.  `pyError` stands for exception paths with no dedicated constructor
(a tuple-unpacking failure, or `close()` raising inside the reject branch);
both are unreachable for a connected state. -/
def authenticate (s : RCONState) (script : List ReadEvent) : AuthOutcome :=
  if s.closed || !s.socket then .invalidState s
  else
    match recvLoop 2 [] s 0 script with
    | .commError s1 => .authError true s1
    | .timeoutError s1 => .timeoutError s1
    | .blocked s1 => .blocked s1
    | .feedError s1 => .feedError s1
    | .invalidState s1 => .pyError s1
    | .ok msgs s1 rest =>
      match msgs with
      | [_, response] =>
        if response.id = -1 then
          match close s1 with
          | .ok s2 => .authError false s2
          | .invalidState _ => .pyError s1
        else .success { s1 with authenticated := true } rest
      | _ => .pyError s1

end RCON

/-- True exactly on the `RCONTimeoutError` outcome. -/
def RCON.RecvOutcome.isTimeout : RCON.RecvOutcome → Bool
  | .timeoutError _ => true
  | _ => false

/-- Invariant of one `_receive` run from a state holding a socket: a
communication or timeout error always leaves the connection closed with the
socket attribute still set, the `RCONError` raise inside `close` is
unreachable, a timeout requires a configured deadline, and a successful
return delivers exactly `count` messages extending the accumulator in
receipt order, with the socket, closed flag and timeout untouched. -/
def RecvProp (count : Nat) (acc : List RCONMessage) (s : RCONState) :
    RCON.RecvOutcome → Prop
  | .commError s1 => s1.closed = true ∧ s1.socket = true ∧ s1.timeout = s.timeout
  | .timeoutError s1 => s1.closed = true ∧ s1.socket = true ∧ s.timeout ≠ none
  | .invalidState _ => False
  | .ok msgs s1 _ =>
      msgs.length = count ∧ s1.socket = true ∧ s1.closed = s.closed ∧
        s1.timeout = s.timeout ∧ ∃ popped, msgs = acc ++ popped
  | .feedError _ => True
  | .blocked _ => True

theorem timeout_ne_none_of_loopCond {s : RCONState} {clock : ℚ}
    (h : ¬ RCON.loopCond s clock = true) : s.timeout ≠ none := by
  intro hn
  exact h (by simp [RCON.loopCond, hn])

theorem read_error_cases {s : RCONState} {d : RCON.ReadData}
    {out : RCON.RecvOutcome} (hsock : s.socket = true)
    (h : RCON.read s d = .error out) :
    out = .commError { s with closed := true } ∨ out = .feedError s := by
  unfold RCON.read at h
  split at h
  · rw [if_pos hsock] at h
    injection h with h'
    exact .inl h'.symm
  · rw [if_pos hsock] at h
    injection h with h'
    exact .inl h'.symm
  · split at h
    · exact absurd h (by simp)
    · injection h with h'
      exact .inr h'.symm

theorem read_ok_state {s s1 : RCONState} {d : RCON.ReadData}
    (h : RCON.read s d = .ok s1) :
    s1.socket = s.socket ∧ s1.closed = s.closed ∧ s1.timeout = s.timeout := by
  unfold RCON.read at h
  split at h
  · split at h <;> exact absurd h (by simp)
  · split at h <;> exact absurd h (by simp)
  · split at h
    · injection h with h'
      subst h'
      exact ⟨rfl, rfl, rfl⟩
    · exact absurd h (by simp)

theorem RecvProp_weaken {count : Nat} {acc acc1 : List RCONMessage}
    {s s1 : RCONState} {o : RCON.RecvOutcome}
    (hc : s1.closed = s.closed) (ht : s1.timeout = s.timeout)
    (hacc : ∃ q, acc1 = acc ++ q)
    (h : RecvProp count acc1 s1 o) : RecvProp count acc s o := by
  cases o with
  | ok msgs s2 rest =>
    obtain ⟨h1, h2, h3, h4, p, hp⟩ := h
    obtain ⟨q, hq⟩ := hacc
    refine ⟨h1, h2, by rw [h3, hc], by rw [h4, ht], q ++ p, ?_⟩
    rw [hp, hq, List.append_assoc]
  | commError s2 =>
    obtain ⟨h1, h2, h3⟩ := h
    exact ⟨h1, h2, by rw [h3, ht]⟩
  | timeoutError s2 =>
    obtain ⟨h1, h2, h3⟩ := h
    exact ⟨h1, h2, by rw [← ht]; exact h3⟩
  | invalidState s2 => exact h.elim
  | feedError s2 => trivial
  | blocked s2 => trivial

theorem recvLoop_prop (count : Nat) :
    ∀ (script : List RCON.ReadEvent) (acc : List RCONMessage) (s : RCONState)
      (clock : ℚ), s.socket = true →
      RecvProp count acc s (RCON.recvLoop count acc s clock script) := by
  intro script
  induction script with
  | nil =>
    intro acc s clock hsock
    rw [RCON.recvLoop]
    split
    · trivial
    · next hcond =>
      exact ⟨rfl, hsock, timeout_ne_none_of_loopCond hcond⟩
  | cons ev rest ih =>
    intro acc s clock hsock
    rw [RCON.recvLoop]
    split
    · next hcond =>
      cases hread : RCON.read s ev.data with
      | error out =>
        simp only [hread]
        rcases read_error_cases hsock hread with h | h
        · subst h
          exact ⟨rfl, hsock, rfl⟩
        · subst h
          trivial
      | ok s1 =>
        simp only [hread]
        obtain ⟨hs1sock, hs1closed, hs1to⟩ := read_ok_state hread
        cases hpop : s1.responses.pop with
        | none =>
          simp only [hpop]
          exact RecvProp_weaken hs1closed hs1to ⟨[], by simp⟩
            (ih acc s1 (clock + ev.delta) (by rw [hs1sock, hsock]))
        | some pair =>
          obtain ⟨m, rb⟩ := pair
          simp only [hpop]
          split
          · next hlen =>
            refine ⟨hlen, ?_, ?_, ?_, [m], rfl⟩
            · show s1.socket = true
              rw [hs1sock, hsock]
            · show s1.closed = s.closed
              exact hs1closed
            · show s1.timeout = s.timeout
              exact hs1to
          · next hlen =>
            refine RecvProp_weaken ?_ ?_ ⟨[m], rfl⟩
              (ih (acc ++ [m]) { s1 with responses := rb } (clock + ev.delta) ?_)
            · show s1.closed = s.closed
              exact hs1closed
            · show s1.timeout = s.timeout
              exact hs1to
            · show s1.socket = true
              rw [hs1sock, hsock]
    · next hcond =>
      exact ⟨rfl, hsock, timeout_ne_none_of_loopCond hcond⟩

/-- Unfolding of `authenticate` past its connected-state guard. -/
theorem authenticate_guard_false {s : RCONState} {script : List RCON.ReadEvent}
    (hsock : s.socket = true) (hopen : s.closed = false) :
    RCON.authenticate s script =
      (match RCON.recvLoop 2 [] s 0 script with
      | .commError s1 => .authError true s1
      | .timeoutError s1 => .timeoutError s1
      | .blocked s1 => .blocked s1
      | .feedError s1 => .feedError s1
      | .invalidState s1 => .pyError s1
      | .ok msgs s1 rest =>
        match msgs with
        | [_, response] =>
          if response.id = -1 then
            match RCON.close s1 with
            | .ok s2 => .authError false s2
            | .invalidState _ => .pyError s1
          else .success { s1 with authenticated := true } rest
        | _ => .pyError s1) := by
  unfold RCON.authenticate
  rw [hopen, hsock]
  rfl

/-- C1: the claim states that `decode(encode(id, type, body))` reproduces
id, type and body for every type code, unknown codes included, because
unknown codes are stored as-is and never rejected.  The code instead runs
`self.Type(type_)` in `RCONMessage.__init__`, so any code outside
`{0, 2, 3}` raises `ValueError`: such a message cannot even be constructed
for encoding, and decoding a well-formed frame carrying type code 1 raises
`ValueError` (escaping the `RCONMessageError` handler in `_consume`)
instead of round-tripping, while the same frame with the valid code 3
decodes fine.  This contradicts the stated design, so the code is the bug. -/
theorem c1_unknown_type_code_rejected :
    RCONMessage.mk? 0 1 [] = none ∧
      RCONMessage.decode [10, 0, 0, 0, 0, 0, 0, 0, 1, 0, 0, 0, 0, 0] =
        .error .valueError ∧
      RCONMessage.decode [10, 0, 0, 0, 0, 0, 0, 0, 3, 0, 0, 0, 0, 0] =
        .ok (⟨0, 3, []⟩, []) :=
  ⟨rfl, rfl, rfl⟩

/-- C2: from a connected, non-closed state, `authenticate` waits for two
replies; if the wait returns two messages and the second has id `-1` the
connection is closed and `RCONAuthenticationError(banned=False)` is
raised; if it fails with a communication error,
`RCONAuthenticationError(banned=True)` is raised with the connection
already closed; otherwise the authenticated flag is set and the call
succeeds. -/
theorem c2_authenticate_outcomes (s : RCONState)
    (script : List RCON.ReadEvent)
    (hsock : s.socket = true) (hopen : s.closed = false) :
    (∀ m1 m2 s1 rest,
      RCON.recvLoop 2 [] s 0 script = .ok [m1, m2] s1 rest →
        (m2.id = -1 →
          RCON.authenticate s script =
            .authError false { s1 with closed := true }) ∧
        (m2.id ≠ -1 →
          RCON.authenticate s script =
            .success { s1 with authenticated := true } rest)) ∧
    (∀ s1, RCON.recvLoop 2 [] s 0 script = .commError s1 →
      RCON.authenticate s script = .authError true s1 ∧ s1.closed = true) := by
  have hauth := @authenticate_guard_false s script hsock hopen
  constructor
  · intro m1 m2 s1 rest hok
    have hprop := recvLoop_prop 2 script [] s 0 hsock
    rw [hok] at hprop
    obtain ⟨-, hs1sock, -, -, -⟩ := hprop
    have hclose : RCON.close s1 = .ok { s1 with closed := true } := by
      unfold RCON.close
      rw [hs1sock]
      rfl
    constructor
    · intro hm2
      rw [hauth, hok]
      dsimp only
      rw [if_pos hm2, hclose]
    · intro hm2
      rw [hauth, hok]
      dsimp only
      rw [if_neg hm2]
  · intro s1 hcomm
    have hprop := recvLoop_prop 2 script [] s 0 hsock
    rw [hcomm] at hprop
    refine ⟨?_, hprop.1⟩
    rw [hauth, hcomm]

/-- C2 witness: a connected state whose two-reply wait dies on a socket
error surfaces `RCONAuthenticationError(banned=True)` with the connection
closed. -/
theorem c2_authenticate_outcomes_witness :
    RCON.authenticate ⟨none, false, true, false, ⟨[], [], 0⟩⟩
        [⟨0, .sockError⟩] =
      .authError true ⟨none, false, true, true, ⟨[], [], 0⟩⟩ ∧
    (⟨none, false, true, true, ⟨[], [], 0⟩⟩ : RCONState).closed = true :=
  (c2_authenticate_outcomes ⟨none, false, true, false, ⟨[], [], 0⟩⟩
    [⟨0, .sockError⟩] rfl rfl).2 ⟨none, false, true, true, ⟨[], [], 0⟩⟩ rfl

/-- C3 counterexample: the claim says that once the ResponseBuffer already
holds the messages needed to reach `count`, receive returns them without
performing further transport reads.  Here the buffer already queues one
message and `count = 1`, yet the loop still issues a transport read first:
the scripted socket error makes that read fail, so the call raises
`RCONCommunicationError` (closing the connection) instead of returning the
queued message. -/
theorem c3_reads_despite_queued_message :
    RCON.recvLoop 1 [] ⟨none, false, true, false, ⟨[], [⟨0, 0, []⟩], 0⟩⟩ 0
        [⟨0, .sockError⟩] =
      .commError ⟨none, false, true, true, ⟨[], [⟨0, 0, []⟩], 0⟩⟩ :=
  rfl

/-- C3 (amended): each iteration of the `_receive` loop performs one
transport read before popping at most one message — even when the
ResponseBuffer already holds enough messages, as witnessed by the loop
blocking on an exhausted script regardless of the queue — and a successful
return delivers exactly `count` messages, extending the already-popped
accumulator in receipt order. -/
theorem c3_receive_semantics :
    (∀ (count : Nat) (s : RCONState) (script : List RCON.ReadEvent)
        (msgs : List RCONMessage) (s1 : RCONState)
        (rest : List RCON.ReadEvent), s.socket = true →
      RCON.receive s count script = .ok msgs s1 rest →
      msgs.length = count) ∧
    (∀ (count : Nat) (acc : List RCONMessage) (s : RCONState)
        (clock : ℚ) (msgs : List RCONMessage) (s1 : RCONState)
        (rest : List RCON.ReadEvent)
        (script : List RCON.ReadEvent), s.socket = true →
      RCON.recvLoop count acc s clock script = .ok msgs s1 rest →
      ∃ popped, msgs = acc ++ popped) ∧
    (∀ (count : Nat) (acc : List RCONMessage) (s : RCONState) (clock : ℚ),
      RCON.loopCond s clock = true →
      RCON.recvLoop count acc s clock [] = .blocked s) := by
  refine ⟨?_, ?_, ?_⟩
  · intro count s script msgs s1 rest hsock hok
    have hprop := recvLoop_prop count script [] s 0 hsock
    unfold RCON.receive at hok
    rw [hok] at hprop
    exact hprop.1
  · intro count acc s clock msgs s1 rest script hsock hok
    have hprop := recvLoop_prop count script acc s clock hsock
    rw [hok] at hprop
    exact hprop.2.2.2.2
  · intro count acc s clock hlc
    rw [RCON.recvLoop, if_pos hlc]

/-- Concrete run used by the C3 witness: with one message already queued
and one scripted read of a single (incomplete) byte, `_receive(1)` reads,
then pops the queued message and returns it. -/
theorem c3_concrete_run :
    RCON.receive ⟨none, false, true, false, ⟨[], [⟨0, 0, []⟩], 0⟩⟩ 1
        [⟨0, .bytes [7]⟩] =
      .ok [⟨0, 0, []⟩] ⟨none, false, true, false, ⟨[7], [], 0⟩⟩ [] := by
  unfold RCON.receive
  rw [RCON.recvLoop]
  have hfeed : ResponseBuffer.feed ⟨[], [⟨0, 0, []⟩], 0⟩ [7] =
      .ok ⟨[7], [⟨0, 0, []⟩], 0⟩ := by
    unfold ResponseBuffer.feed
    exact consume_stuck rfl
  have hread : RCON.read ⟨none, false, true, false, ⟨[], [⟨0, 0, []⟩], 0⟩⟩
      (RCON.ReadData.bytes [7]) =
      .ok ⟨none, false, true, false, ⟨[7], [⟨0, 0, []⟩], 0⟩⟩ := by
    unfold RCON.read
    dsimp only
    rw [hfeed]
  rw [show RCON.loopCond ⟨none, false, true, false, ⟨[], [⟨0, 0, []⟩], 0⟩⟩ 0
      = true from rfl]
  rw [if_pos rfl, hread]
  rfl

/-- C3 witness: the amended theorem evaluated on the concrete run above and
on an exhausted script with a non-expired deadline. -/
theorem c3_receive_semantics_witness :
    ([(⟨0, 0, []⟩ : RCONMessage)].length = 1) ∧
    RCON.recvLoop 1 [] ⟨none, false, true, false, ⟨[], [⟨0, 0, []⟩], 0⟩⟩ 0 []
      = .blocked ⟨none, false, true, false, ⟨[], [⟨0, 0, []⟩], 0⟩⟩ :=
  ⟨c3_receive_semantics.1 1 ⟨none, false, true, false, ⟨[], [⟨0, 0, []⟩], 0⟩⟩
      [⟨0, .bytes [7]⟩] [⟨0, 0, []⟩]
      ⟨none, false, true, false, ⟨[7], [], 0⟩⟩ [] rfl c3_concrete_run,
    c3_receive_semantics.2.2 1 [] ⟨none, false, true, false, ⟨[], [⟨0, 0, []⟩], 0⟩⟩
      0 rfl⟩

/-- C4: feeding a complete encoded frame split at any byte boundaries
across two or more `feed` calls leaves the ResponseBuffer in the same
state as feeding the whole frame in one call: exactly that one decoded
message queued.  (`typeValid` holds for every message the Python
constructor lets exist.) -/
theorem c4_partial_delivery (id t : Int) (body frame : List Nat)
    (chunks : List (List Nat))
    (htv : RCONMessage.typeValid t = true)
    (henc : RCONMessage.encode ⟨id, t, body⟩ = some frame)
    (hsplit : chunks.flatten = frame)
    (_htwo : 2 ≤ chunks.length) :
    feedMany ResponseBuffer.init chunks = ResponseBuffer.init.feed frame ∧
      ResponseBuffer.init.feed frame = .ok ⟨[], [⟨id, t, body⟩], 0⟩ := by
  obtain ⟨hid, -, hb⟩ := encode_isSome_hyps henc
  have hframe : frame = frameOf id t body := by
    have h2 := encode_eq_frameOf id t body hid htv hb
    rw [henc] at h2
    exact Option.some.inj h2
  subst hframe
  have hwhole : ResponseBuffer.init.feed (frameOf id t body) =
      .ok ⟨[], [⟨id, t, body⟩], 0⟩ := by
    unfold ResponseBuffer.feed ResponseBuffer.init
    dsimp only
    rw [List.nil_append]
    exact consume_frame_keep id t body [] hid htv hb
  refine ⟨?_, hwhole⟩
  rw [hwhole]
  exact feedMany_chunks_aux id t body hid htv hb chunks []
    (by simpa using hsplit) (by simp [frameOf_length])

/-- C4 witness: the 14-byte frame of message `(5, EXECCOMMAND, b"")` split
into two chunks queues the same single message as feeding it whole. -/
theorem c4_partial_delivery_witness :
    RCONMessage.typeValid 2 = true ∧
    RCONMessage.encode ⟨5, 2, []⟩ =
      some [10, 0, 0, 0, 5, 0, 0, 0, 2, 0, 0, 0, 0, 0] ∧
    ([[10, 0, 0, 0, 5], [0, 0, 0, 2, 0, 0, 0, 0, 0]] :
      List (List Nat)).flatten = [10, 0, 0, 0, 5, 0, 0, 0, 2, 0, 0, 0, 0, 0] ∧
    2 ≤ ([[10, 0, 0, 0, 5], [0, 0, 0, 2, 0, 0, 0, 0, 0]] :
      List (List Nat)).length ∧
    (feedMany ResponseBuffer.init [[10, 0, 0, 0, 5], [0, 0, 0, 2, 0, 0, 0, 0, 0]] =
      ResponseBuffer.init.feed [10, 0, 0, 0, 5, 0, 0, 0, 2, 0, 0, 0, 0, 0] ∧
      ResponseBuffer.init.feed [10, 0, 0, 0, 5, 0, 0, 0, 2, 0, 0, 0, 0, 0] =
        .ok ⟨[], [⟨5, 2, []⟩], 0⟩) :=
  ⟨rfl, rfl, rfl, by decide,
    c4_partial_delivery 5 2 [] _ _ rfl rfl rfl (by decide)⟩

/-- C5: `discard()` with a non-empty queue removes exactly the oldest
queued message, leaving the rest in order and everything else untouched;
with an empty queue it increments the discard counter; and feeding one
complete frame into a buffer with a positive discard counter drops the
decoded message instead of queueing it, consuming one unit of the
counter. -/
theorem c5_discard_semantics (rb : ResponseBuffer) :
    (∀ m rest, rb.responses = m :: rest →
      rb.discard = { rb with responses := rest }) ∧
    (rb.responses = [] →
      rb.discard = { rb with discardNext := rb.discardNext + 1 }) ∧
    (∀ (id t : Int) (body : List Nat) (k : Nat), i32Range id →
      RCONMessage.typeValid t = true → (body.length : Int) + 10 < 2 ^ 31 →
      ResponseBuffer.feed ⟨[], [], k + 1⟩ (frameOf id t body) =
        .ok ⟨[], [], k⟩) := by
  refine ⟨?_, ?_, ?_⟩
  · intro m rest h
    unfold ResponseBuffer.discard
    rw [h]
  · intro h
    unfold ResponseBuffer.discard
    rw [h]
  · intro id t body k hid htv hb
    unfold ResponseBuffer.feed
    dsimp only
    rw [List.nil_append]
    exact consume_frame_drop id t body [] k hid htv hb

/-- C5 witness: discarding a queued message, discarding on an empty queue,
and a scheduled discard swallowing the next decoded frame. -/
theorem c5_discard_semantics_witness :
    ResponseBuffer.discard ⟨[], [⟨0, 0, []⟩], 0⟩ = ⟨[], [], 0⟩ ∧
    ResponseBuffer.discard ⟨[], [], 0⟩ = ⟨[], [], 1⟩ ∧
    ResponseBuffer.feed ⟨[], [], 1⟩ (frameOf 5 2 []) = .ok ⟨[], [], 0⟩ :=
  ⟨(c5_discard_semantics ⟨[], [⟨0, 0, []⟩], 0⟩).1 ⟨0, 0, []⟩ [] rfl,
   (c5_discard_semantics ⟨[], [], 0⟩).2.1 rfl,
   (c5_discard_semantics ⟨[], [], 0⟩).2.2 5 2 [] 0 (by decide) rfl (by decide)⟩

/-- C6: whenever the receive loop surfaces `RCONCommunicationError` (failed
or empty transport read) or `RCONTimeoutError` (deadline passed), the
connection has already been closed; no error from the receive path leaves
it open. -/
theorem c6_errors_close_connection (count : Nat) (acc : List RCONMessage)
    (s : RCONState) (clock : ℚ) (script : List RCON.ReadEvent)
    (hsock : s.socket = true) :
    (∀ s1, RCON.recvLoop count acc s clock script = .commError s1 →
      s1.closed = true) ∧
    (∀ s1, RCON.recvLoop count acc s clock script = .timeoutError s1 →
      s1.closed = true) := by
  have hprop := recvLoop_prop count script acc s clock hsock
  constructor
  · intro s1 h
    rw [h] at hprop
    exact hprop.1
  · intro s1 h
    rw [h] at hprop
    exact hprop.1

/-- Concrete run used by the C6 witness: a one-second deadline, one read
that takes two seconds and delivers a single (incomplete) byte, hence a
timeout with the connection closed. -/
theorem c6_timeout_run :
    RCON.recvLoop 1 [] ⟨some 1, false, true, false, ⟨[], [], 0⟩⟩ 0
        [⟨2, .bytes [1]⟩] =
      .timeoutError ⟨some 1, false, true, true, ⟨[1], [], 0⟩⟩ := by
  rw [RCON.recvLoop]
  rw [if_pos (by simp only [RCON.loopCond]; norm_num)]
  have hfeed : ResponseBuffer.feed ⟨[], [], 0⟩ [1] = .ok ⟨[1], [], 0⟩ := by
    unfold ResponseBuffer.feed
    exact consume_stuck rfl
  have hread : RCON.read ⟨some 1, false, true, false, ⟨[], [], 0⟩⟩
      (RCON.ReadData.bytes [1]) =
      .ok ⟨some 1, false, true, false, ⟨[1], [], 0⟩⟩ := by
    unfold RCON.read
    dsimp only
    rw [hfeed]
  rw [hread]
  dsimp only
  rw [RCON.recvLoop]
  rw [if_neg (by simp only [RCON.loopCond, decide_eq_true_eq]; norm_num)]
  rfl

/-- C6 witness: the short-timeout run ends in `RCONTimeoutError` with the
connection closed. -/
theorem c6_errors_close_connection_witness :
    RCON.recvLoop 1 [] ⟨some 1, false, true, false, ⟨[], [], 0⟩⟩ 0
        [⟨2, .bytes [1]⟩] =
      .timeoutError ⟨some 1, false, true, true, ⟨[1], [], 0⟩⟩ ∧
    (⟨some 1, false, true, true, ⟨[1], [], 0⟩⟩ : RCONState).closed = true :=
  ⟨c6_timeout_run,
   (c6_errors_close_connection 1 [] ⟨some 1, false, true, false, ⟨[], [], 0⟩⟩ 0
      [⟨2, .bytes [1]⟩] rfl).2 ⟨some 1, false, true, true, ⟨[1], [], 0⟩⟩
      c6_timeout_run⟩

/-- C7 counterexample: the claim says `authenticate` fails with
`InvalidState` when the connection is already authenticated.  On an
already-authenticated open connection the guard does not fire: the call
runs the full handshake again (here ending in
`RCONAuthenticationError(banned=True)` because the scripted transport
fails, not in any `InvalidState` error). -/
theorem c7_authenticated_state_not_rejected :
    RCON.authenticate ⟨none, true, true, false, ⟨[], [], 0⟩⟩
        [⟨0, .sockError⟩] =
      .authError true ⟨none, true, true, true, ⟨[], [], 0⟩⟩ :=
  rfl

/-- C7 (amended): `authenticate` fails with the `RCONError` state guard
exactly when the connection is closed or no socket exists (before
`connect` or after `close`); an already-authenticated open connection is
not rejected. -/
theorem c7_invalid_state_iff (s : RCONState) (script : List RCON.ReadEvent) :
    (s.closed = true ∨ s.socket = false) ↔
      RCON.authenticate s script = .invalidState s := by
  constructor
  · intro h
    have hc : (s.closed || !s.socket) = true := by
      rcases h with h | h <;> simp [h]
    unfold RCON.authenticate
    rw [hc]
    rfl
  · intro h
    by_contra hcon
    push_neg at hcon
    obtain ⟨h1, h2⟩ := hcon
    simp only [Bool.not_eq_true] at h1
    simp only [Bool.not_eq_false] at h2
    rw [authenticate_guard_false h2 h1] at h
    split at h <;> try split at h <;> try split at h <;> try split at h
    all_goals simp at h

/-- C9: a `connect`, `close` or `authenticate` call rejected with the
lifecycle-order `RCONError` leaves every field of the connection state
(authenticated flag, closed flag, socket, response buffer) unchanged. -/
theorem c9_invalid_state_is_pure (s : RCONState)
    (script : List RCON.ReadEvent) :
    (∀ s1, RCON.connect s = .invalidState s1 → s1 = s) ∧
    (∀ s1, RCON.close s = .invalidState s1 → s1 = s) ∧
    (∀ s1, RCON.authenticate s script = .invalidState s1 → s1 = s) := by
  refine ⟨?_, ?_, ?_⟩
  · intro s1 h
    unfold RCON.connect at h
    split at h
    · injection h with h'
      exact h'.symm
    · exact absurd h (by simp)
  · intro s1 h
    unfold RCON.close at h
    split at h
    · injection h with h'
      exact h'.symm
    · exact absurd h (by simp)
  · intro s1 h
    unfold RCON.authenticate at h
    split at h
    · injection h with h'
      exact h'.symm
    · split at h <;> try split at h <;> try split at h <;> try split at h
      all_goals simp at h

/-- C9 witness: `authenticate` on a closed connection raises the guard
error and the state is unchanged. -/
theorem c9_invalid_state_is_pure_witness :
    RCON.authenticate ⟨none, false, true, true, ⟨[], [], 0⟩⟩ [] =
      .invalidState ⟨none, false, true, true, ⟨[], [], 0⟩⟩ ∧
    (⟨none, false, true, true, ⟨[], [], 0⟩⟩ : RCONState) =
      ⟨none, false, true, true, ⟨[], [], 0⟩⟩ :=
  ⟨rfl, (c9_invalid_state_is_pure ⟨none, false, true, true, ⟨[], [], 0⟩⟩ []).2.2
    ⟨none, false, true, true, ⟨[], [], 0⟩⟩ rfl⟩

theorem read_error_not_timeout {s : RCONState} {d : RCON.ReadData}
    {out : RCON.RecvOutcome} (h : RCON.read s d = .error out) :
    out.isTimeout = false := by
  unfold RCON.read at h
  split at h
  · split at h <;> (injection h with h'; subst h'; rfl)
  · split at h <;> (injection h with h'; subst h'; rfl)
  · split at h
    · exact absurd h (by simp)
    · injection h with h'
      subst h'
      rfl

theorem recvLoop_no_timeout (count : Nat) :
    ∀ (script : List RCON.ReadEvent) (acc : List RCONMessage) (s : RCONState)
      (clock : ℚ), s.timeout = none →
      (RCON.recvLoop count acc s clock script).isTimeout = false := by
  intro script
  induction script with
  | nil =>
    intro acc s clock hto
    rw [RCON.recvLoop]
    rw [if_pos (by simp [RCON.loopCond, hto])]
    rfl
  | cons ev rest ih =>
    intro acc s clock hto
    rw [RCON.recvLoop]
    rw [if_pos (by simp [RCON.loopCond, hto])]
    cases hread : RCON.read s ev.data with
    | error out =>
      simp only [hread]
      exact read_error_not_timeout hread
    | ok s1 =>
      simp only [hread]
      have hto1 : s1.timeout = none := by
        rw [(read_ok_state hread).2.2, hto]
      cases hpop : s1.responses.pop with
      | none =>
        simp only [hpop]
        exact ih acc s1 (clock + ev.delta) hto1
      | some pair =>
        obtain ⟨m, rb⟩ := pair
        simp only [hpop]
        split
        · rfl
        · exact ih (acc ++ [m]) { s1 with responses := rb } (clock + ev.delta)
            hto1

/-- C10: constructing a connection with timeout `0` stores the timeout as
absent; with an absent timeout the receive loop never raises
`RCONTimeoutError` (it waits indefinitely); a strictly positive timeout is
stored as given and so bounds the wait. -/
theorem c10_zero_timeout_means_absent :
    (RCON.init (some 0)).timeout = none ∧
    (∀ t : ℚ, 0 < t → (RCON.init (some t)).timeout = some t) ∧
    (∀ (count : Nat) (acc : List RCONMessage) (s : RCONState) (clock : ℚ)
        (script : List RCON.ReadEvent), s.timeout = none →
      (RCON.recvLoop count acc s clock script).isTimeout = false) := by
  refine ⟨?_, ?_, ?_⟩
  · rfl
  · intro t ht
    unfold RCON.init
    dsimp only
    rw [if_neg (ne_of_gt ht)]
  · intro count acc s clock script hto
    exact recvLoop_no_timeout count script acc s clock hto

/-- C10 witness: a positive timeout is stored as given, and a state with an
absent timeout never times out (exercised on an exhausted script). -/
theorem c10_zero_timeout_means_absent_witness :
    (RCON.init (some 1)).timeout = some 1 ∧
    (RCON.recvLoop 1 [] ⟨none, false, true, false, ⟨[], [], 0⟩⟩ 0
      []).isTimeout = false :=
  ⟨c10_zero_timeout_means_absent.2.1 1 zero_lt_one,
   c10_zero_timeout_means_absent.2.2 1 []
     ⟨none, false, true, false, ⟨[], [], 0⟩⟩ 0 [] rfl⟩

/-- C8: feeding two concatenated complete frames in one `feed` call queues
both decoded messages in arrival order. -/
theorem c8_pipelining (id1 t1 id2 t2 : Int) (b1 b2 f1 f2 : List Nat)
    (htv1 : RCONMessage.typeValid t1 = true)
    (htv2 : RCONMessage.typeValid t2 = true)
    (henc1 : RCONMessage.encode ⟨id1, t1, b1⟩ = some f1)
    (henc2 : RCONMessage.encode ⟨id2, t2, b2⟩ = some f2) :
    ResponseBuffer.init.feed (f1 ++ f2) =
      .ok ⟨[], [⟨id1, t1, b1⟩, ⟨id2, t2, b2⟩], 0⟩ := by
  obtain ⟨hr1, -, hb1⟩ := encode_isSome_hyps henc1
  obtain ⟨hr2, -, hb2⟩ := encode_isSome_hyps henc2
  have hf1 : f1 = frameOf id1 t1 b1 := by
    have h2 := encode_eq_frameOf id1 t1 b1 hr1 htv1 hb1
    rw [henc1] at h2
    exact Option.some.inj h2
  have hf2 : f2 = frameOf id2 t2 b2 := by
    have h2 := encode_eq_frameOf id2 t2 b2 hr2 htv2 hb2
    rw [henc2] at h2
    exact Option.some.inj h2
  subst hf1 hf2
  unfold ResponseBuffer.feed ResponseBuffer.init
  dsimp only
  rw [List.nil_append]
  exact consume_two_frames id1 t1 b1 id2 t2 b2 [] hr1 htv1 hb1 hr2 htv2 hb2

/-- C8 witness: the frames of `(5, EXECCOMMAND, b"")` and
`(7, RESPONSE_VALUE, b"A")` fed in one call queue both messages in
order. -/
theorem c8_pipelining_witness :
    RCONMessage.typeValid 2 = true ∧
    RCONMessage.typeValid 0 = true ∧
    RCONMessage.encode ⟨5, 2, []⟩ =
      some [10, 0, 0, 0, 5, 0, 0, 0, 2, 0, 0, 0, 0, 0] ∧
    RCONMessage.encode ⟨7, 0, [65]⟩ =
      some [11, 0, 0, 0, 7, 0, 0, 0, 0, 0, 0, 0, 65, 0, 0] ∧
    ResponseBuffer.init.feed
        ([10, 0, 0, 0, 5, 0, 0, 0, 2, 0, 0, 0, 0, 0] ++
          [11, 0, 0, 0, 7, 0, 0, 0, 0, 0, 0, 0, 65, 0, 0]) =
      .ok ⟨[], [⟨5, 2, []⟩, ⟨7, 0, [65]⟩], 0⟩ :=
  ⟨rfl, rfl, rfl, rfl,
    c8_pipelining 5 2 7 0 [] [65] _ _ rfl rfl rfl rfl⟩

end Rcon
